import Mathlib

/-!
Verification of the OCRS (Online Course Registration System) enrollment and
waitlist logic.

The repository implements enrollment handling in two places:

* a MySQL schema (`schema.sql`) with triggers `before_enrollment_insert`
  (capacity enforcement), `before_waitlist_insert` (position assignment),
  `after_enrollment_insert` and `after_enrollment_update` (audit logging) —
  modelled in namespace `Schema` below as explicit state-passing operations
  over a `DbState`;
* an in-memory React frontend (`App.jsx`) with handlers `handleEnroll` and
  `handleDrop` over a client-side database object — modelled in namespace
  `Frontend` below.

The Flask backend contains no enrollment routes (the project summary records
the core-API phase at 0%), so these two layers are the only enrollment code
in the repository.
-/

namespace Frontend

/-- Enrollment status strings used by `App.jsx` (Lean inductive for the two
string values `"enrolled"` and `"dropped"` the handlers write). -/
inductive EStatus where
  | enrolled
  | dropped
deriving DecidableEq

/-- One element of `db.enrollments` in `App.jsx`.  The `enrolledDate` string
is carried by the source but never read by any handler, so it is omitted. -/
structure Enrollment where
  id : Nat
  studentId : Nat
  courseId : Nat
  status : EStatus
deriving DecidableEq

/-- One element of `db.courses` in `App.jsx`, restricted to the fields the
enrollment handlers read or write (`id`, `capacity`, `enrolled`).  The
counters are JavaScript numbers and `handleDrop` decrements without a guard,
so they are modelled as `Int`. -/
structure Course where
  id : Nat
  capacity : Int
  enrolled : Int
deriving DecidableEq

/-- The slice of the `App.jsx` in-memory database the enrollment handlers
touch: `db.courses` and `db.enrollments`. -/
structure Db where
  courses : List Course
  enrollments : List Enrollment
deriving DecidableEq

/-- Outcomes of `handleEnroll` in `App.jsx`.  The source has exactly three
exits: a silent early `return` when the course id is not found, the
`"Course full"` error notification, and the `"Enrolled successfully"`
success notification.  There is no waitlist outcome of any kind. -/
inductive EnrollResult where
  | noCourse
  | courseFull
  | enrolledOk
deriving DecidableEq

/-- The course lookup `db.courses.find((c) => c.id === courseId)`. -/
def findCourse (db : Db) (courseId : Nat) : Option Course :=
  db.courses.find? (fun c => c.id == courseId)

/-- `handleEnroll` from `App.jsx`: look the course up; silently return if it
does not exist; report `"Course full"` if `course.enrolled >= course.capacity`;
otherwise append a fresh enrollment record with id `enrollments.length + 1`
and status `"enrolled"`, and increment the course's `enrolled` counter.  The
source performs no check that the student is already enrolled and never
touches a waitlist. -/
def handleEnroll (db : Db) (userId courseId : Nat) : Db × EnrollResult :=
  match findCourse db courseId with
  | none => (db, .noCourse)
  | some course =>
    if course.enrolled ≥ course.capacity then
      (db, .courseFull)
    else
      ({ courses := db.courses.map (fun c =>
            if c.id == courseId then { c with enrolled := c.enrolled + 1 } else c),
         enrollments := db.enrollments ++
           [{ id := db.enrollments.length + 1, studentId := userId,
              courseId := courseId, status := .enrolled }] },
       .enrolledOk)

/-- `handleDrop` from `App.jsx`: set `status` to `"dropped"` on every
enrollment of `(userId, courseId)` and decrement the course's `enrolled`
counter by one.  The source performs both updates unconditionally — there is
no check that the student is enrolled, no error path, and no waitlist
promotion; the surrounding notification is always `"Course dropped"`
(success). -/
def handleDrop (db : Db) (userId courseId : Nat) : Db :=
  { courses := db.courses.map (fun c =>
      if c.id == courseId then { c with enrolled := c.enrolled - 1 } else c),
    enrollments := db.enrollments.map (fun e =>
      if e.studentId == userId && e.courseId == courseId then
        { e with status := .dropped }
      else e) }

/-- The `initializeDatabase()` literal from `App.jsx`, restricted to the
modelled fields: four courses (capacities 30, 25, 30, 28 with `enrolled`
counters 18, 20, 22, 15) and one enrollment (student 1 enrolled in
course 1). -/
def initializeDatabase : Db :=
  { courses := [⟨1, 30, 18⟩, ⟨2, 25, 20⟩, ⟨3, 30, 22⟩, ⟨4, 28, 15⟩],
    enrollments := [⟨1, 1, 1, .enrolled⟩] }

/-- Sequential composition of `handleEnroll` calls for one course: each call
runs against the database produced by the previous one, which is the
semantics of the single-threaded JavaScript runtime the handler lives in. -/
def enrollAll (db : Db) (cid : Nat) : List Nat → Db × List EnrollResult
  | [] => (db, [])
  | uid :: rest =>
    let step := handleEnroll db uid cid
    let next := enrollAll step.1 cid rest
    (next.1, step.2 :: next.2)

/-- A one-seat course that is already full, used as a concrete test state. -/
def fullDb : Db := { courses := [⟨1, 1, 1⟩], enrollments := [⟨1, 7, 1, .enrolled⟩] }

/-- A one-seat course with no enrollments, used as a concrete test state. -/
def raceDb : Db := { courses := [⟨1, 1, 0⟩], enrollments := [] }

end Frontend

namespace Schema

/-- `section.status` enum from the schema: `('Scheduled', 'Cancelled', 'Completed')`. -/
inductive SectionStatus where
  | Scheduled
  | Cancelled
  | Completed
deriving DecidableEq

/-- `enrollment.enrollment_status` enum from the schema:
`('Enrolled', 'Dropped', 'Completed', 'Withdrawn')`. -/
inductive EnrollStatus where
  | Enrolled
  | Dropped
  | Completed
  | Withdrawn
deriving DecidableEq

/-- A row of the `section` table, restricted to the columns the enrollment
and waitlist logic reads (`section_id`, `capacity`, `status`). -/
structure SectionRow where
  section_id : Nat
  capacity : Nat
  status : SectionStatus
deriving DecidableEq

/-- A row of the `enrollment` table, restricted to the columns the triggers
read or write. -/
structure EnrollmentRow where
  enrollment_id : Nat
  student_id : Nat
  section_id : Nat
  enrollment_status : EnrollStatus
deriving DecidableEq

/-- A row of the `waitlist` table. -/
structure WaitlistRow where
  waitlist_id : Nat
  section_id : Nat
  student_id : Nat
  position : Nat
deriving DecidableEq

/-- `audit_log.action_type` values written by the schema's triggers.  Only
the two enrollment triggers write audit rows; no trigger on `waitlist`
exists, so no waitlist action type ever appears. -/
inductive ActionType where
  | ENROLLMENT_CREATE
  | ENROLLMENT_UPDATE
deriving DecidableEq

/-- The `details` JSON written by the audit triggers:
`after_enrollment_insert` records `(section_id, status)` and
`after_enrollment_update` records `(old_status, new_status)`. -/
inductive AuditDetails where
  | createDetails (section_id : Nat) (status : EnrollStatus)
  | updateDetails (old_status new_status : EnrollStatus)
deriving DecidableEq

/-- A row of the `audit_log` table, restricted to the columns the triggers
populate with enrollment-specific data. -/
structure AuditRow where
  action_type : ActionType
  object_id : Nat
  details : AuditDetails
deriving DecidableEq

/-- The database state over the tables involved in enrollment: `section`
(read-only here), the set of `student_profile` ids (each has a `NOT NULL`
unique `user_id`, so the audit triggers' join to `user_account` yields
exactly one row per student), `enrollment`, `waitlist` and `audit_log`. -/
structure DbState where
  sections : List SectionRow
  students : List Nat
  enrollment : List EnrollmentRow
  waitlist : List WaitlistRow
  audit_log : List AuditRow
deriving DecidableEq

/-- Errors an insert statement can raise: the trigger's
`SIGNAL SQLSTATE '45000'` with message `Section is at full capacity`, a
unique-key violation, or a foreign-key violation. -/
inductive DbError where
  | sectionFullSignal
  | duplicateKey
  | foreignKeyViolation
deriving DecidableEq

/-- The `before_enrollment_insert` count:
`SELECT COUNT(*) FROM enrollment WHERE section_id = ? AND enrollment_status = 'Enrolled'`. -/
def countEnrolled (s : DbState) (sid : Nat) : Nat :=
  (s.enrollment.filter
    (fun r => r.section_id == sid && r.enrollment_status == .Enrolled)).length

/-- The `before_waitlist_insert` aggregate `COALESCE(MAX(position), 0)` over
the section's waitlist rows (`0` when the section has none). -/
def maxWaitlistPosition (s : DbState) (sid : Nat) : Nat :=
  ((s.waitlist.filter (fun w => w.section_id == sid)).map
    (fun w => w.position)).foldr Nat.max 0

/-- `AUTO_INCREMENT` id for a fresh `enrollment` row, modelled as one more
than the largest id present. -/
def nextEnrollmentId (s : DbState) : Nat :=
  (s.enrollment.map (fun r => r.enrollment_id)).foldr Nat.max 0 + 1

/-- `AUTO_INCREMENT` id for a fresh `waitlist` row. -/
def nextWaitlistId (s : DbState) : Nat :=
  (s.waitlist.map (fun w => w.waitlist_id)).foldr Nat.max 0 + 1

/-- `INSERT INTO enrollment (student_id, section_id, enrollment_status)` as
executed by MySQL: the `before_enrollment_insert` trigger fires first and
signals `Section is at full capacity` when the section's current `Enrolled`
count is at least its `capacity`; then the unique key
`(student_id, section_id)` and the foreign keys are checked; on success the
row is stored and the `after_enrollment_insert` trigger appends exactly one
`ENROLLMENT_CREATE` audit row (the `student_profile`/`user_account` join in
the trigger body matches exactly one user for a stored student id). -/
def insertEnrollment (s : DbState) (student sid : Nat) (st : EnrollStatus) :
    Except DbError DbState :=
  match s.sections.find? (fun sec => sec.section_id == sid) with
  | none => .error .foreignKeyViolation
  | some sec =>
    if sec.capacity ≤ countEnrolled s sid then .error .sectionFullSignal
    else if ¬ s.students.contains student then .error .foreignKeyViolation
    else if s.enrollment.any (fun r => r.student_id == student && r.section_id == sid) then
      .error .duplicateKey
    else
      .ok { s with
        enrollment := s.enrollment ++ [⟨nextEnrollmentId s, student, sid, st⟩],
        audit_log := s.audit_log ++
          [⟨.ENROLLMENT_CREATE, nextEnrollmentId s, .createDetails sid st⟩] }

/-- `UPDATE enrollment SET enrollment_status = ? WHERE student_id = ? AND
section_id = ?` (the statement shape a drop performs): every matched row has
its status replaced, and the `after_enrollment_update` trigger appends one
`ENROLLMENT_UPDATE` audit row per matched row recording old and new status.
Under the table's unique key the pair matches at most one row.  No trigger
on `waitlist` exists, so the statement never touches the waitlist. -/
def updateEnrollmentStatus (s : DbState) (student sid : Nat) (st : EnrollStatus) :
    DbState :=
  { s with
    enrollment := s.enrollment.map (fun r =>
      if r.student_id == student && r.section_id == sid then
        { r with enrollment_status := st }
      else r),
    audit_log := s.audit_log ++
      (s.enrollment.filter
        (fun r => r.student_id == student && r.section_id == sid)).map
        (fun r => ⟨.ENROLLMENT_UPDATE, r.enrollment_id,
                   .updateDetails r.enrollment_status st⟩) }

/-- `INSERT INTO waitlist (section_id, student_id, position)` as executed by
MySQL: the `before_waitlist_insert` trigger replaces whatever position the
statement supplied with `COALESCE(MAX(position), 0) + 1` over the section's
rows; then the unique key `(section_id, student_id)` and the foreign keys
are checked and the row is stored.  The schema has no trigger on `waitlist`,
so no audit row is written. -/
def insertWaitlist (s : DbState) (student sid supplied_position : Nat) :
    Except DbError DbState :=
  if ¬ s.sections.any (fun sec => sec.section_id == sid) then
    .error .foreignKeyViolation
  else if ¬ s.students.contains student then .error .foreignKeyViolation
  else if s.waitlist.any (fun w => w.section_id == sid && w.student_id == student) then
    .error .duplicateKey
  else
    .ok { s with
      waitlist := s.waitlist ++
        [⟨nextWaitlistId s, sid, student, maxWaitlistPosition s sid + 1⟩] }

/-- `DELETE FROM waitlist WHERE section_id = ? AND student_id = ?`: the row
is removed and nothing else happens — the schema defines no delete trigger,
no renumbering of the remaining positions, and no audit row. -/
def deleteWaitlist (s : DbState) (sid student : Nat) : DbState :=
  { s with
    waitlist := s.waitlist.filter
      (fun w => ¬ (w.section_id == sid && w.student_id == student)) }

/-- States reachable through the enrollment-related statements the
repository issues against the schema: starting from a state with empty
`enrollment`, `waitlist` and `audit_log` tables and sections with distinct
primary keys, one can insert enrollment rows (through
`before_enrollment_insert`), update an enrollment row's status away from
`Enrolled` (a drop/complete/withdraw — no statement in the repository
updates a row *to* `Enrolled`; the designed waitlist promotion creates a
fresh row by insert), insert waitlist rows (through
`before_waitlist_insert`) and delete waitlist rows. -/
inductive Reachable : DbState → Prop
  | init (sections : List SectionRow) (students : List Nat)
      (huniq : sections.Pairwise (fun a b => a.section_id ≠ b.section_id)) :
      Reachable ⟨sections, students, [], [], []⟩
  | enroll {s s' : DbState} (student sid : Nat) (st : EnrollStatus) :
      Reachable s → insertEnrollment s student sid st = .ok s' → Reachable s'
  | drop {s : DbState} (student sid : Nat) (st : EnrollStatus) :
      Reachable s → st ≠ .Enrolled → Reachable (updateEnrollmentStatus s student sid st)
  | waitlistAdd {s s' : DbState} (student sid p : Nat) :
      Reachable s → insertWaitlist s student sid p = .ok s' → Reachable s'
  | waitlistRemove {s : DbState} (sid student : Nat) :
      Reachable s → Reachable (deleteWaitlist s sid student)

/-- The waitlist positions of one section, in table (arrival) order. -/
def waitPositions (s : DbState) (sid : Nat) : List Nat :=
  (s.waitlist.filter (fun w => w.section_id == sid)).map (fun w => w.position)

/-- Spec predicate, written from the spec's words (not from the source):
the positions of a section's waitlist entries form the contiguous sequence
`1..N` in arrival order, `N` being the number of entries. -/
def contiguousPositions (s : DbState) (sid : Nat) : Prop :=
  waitPositions s sid = List.range' 1 (waitPositions s sid).length

instance (s : DbState) (sid : Nat) : Decidable (contiguousPositions s sid) := by
  unfold contiguousPositions; infer_instance

/-- A one-seat scheduled section and three students, with all three mutable
tables empty: the base state of the concrete scenarios below. -/
def capOne : DbState := ⟨[⟨1, 1, .Scheduled⟩], [1, 2, 3], [], [], []⟩

/-- `capOne` after student 1 successfully enrolls: the section is full and
the insert trigger has logged one `ENROLLMENT_CREATE` audit row. -/
def capOneFull : DbState :=
  ⟨[⟨1, 1, .Scheduled⟩], [1, 2, 3], [⟨1, 1, 1, .Enrolled⟩], [],
   [⟨.ENROLLMENT_CREATE, 1, .createDetails 1 .Enrolled⟩]⟩

/-- `capOneFull` after student 2 is put on the waitlist at position 1. -/
def promoState : DbState := { capOneFull with waitlist := [⟨1, 1, 2, 1⟩] }

/-- `capOne` after student 2 is put on the waitlist at position 1. -/
def capOneWl : DbState := { capOne with waitlist := [⟨1, 1, 2, 1⟩] }

/-- `capOne` after student 1 joins the waitlist (position 1). -/
def wlOne : DbState := { capOne with waitlist := [⟨1, 1, 1, 1⟩] }

/-- `wlOne` after student 2 joins the waitlist (position 2). -/
def wlTwo : DbState := { capOne with waitlist := [⟨1, 1, 1, 1⟩, ⟨2, 1, 2, 2⟩] }

/-- `wlTwo` after student 3 joins the waitlist (position 3). -/
def wlThree : DbState :=
  { capOne with waitlist := [⟨1, 1, 1, 1⟩, ⟨2, 1, 2, 2⟩, ⟨3, 1, 3, 3⟩] }

/-- `wlThree` after the middle entry (student 2, position 2) is deleted:
the remaining positions are 1 and 3. -/
def wlGap : DbState := deleteWaitlist wlThree 1 2

end Schema

namespace Frontend

/-- C9: for every call to the enroll handler where the requested course id
does not exist, or the course's enrolled count is greater than or equal to
its capacity, the entire database state is left unchanged — the failed
operation has no partial effect. -/
theorem handleEnroll_error_no_change (db : Db) (uid cid : Nat)
    (h : findCourse db cid = none ∨
         ∃ c, findCourse db cid = some c ∧ c.capacity ≤ c.enrolled) :
    (handleEnroll db uid cid).1 = db := by
  rcases h with h | ⟨c, hc, hfull⟩
  · simp [handleEnroll, h]
  · simp [handleEnroll, hc, hfull]

/-- Witness for C9 at the source's initial database and a missing course id. -/
theorem handleEnroll_error_no_change_witness :
    (handleEnroll initializeDatabase 1 99).1 = initializeDatabase :=
  handleEnroll_error_no_change initializeDatabase 1 99 (Or.inl rfl)

/-- C6 counterexample: on a full offering the enroll handler returns the
`Course full` error outcome and changes nothing; `EnrollResult` enumerates
every exit of the handler and has no waitlisted success, and the unchanged
state shows no entry of any kind was created. -/
theorem enroll_full_cex :
    (handleEnroll fullDb 2 1).2 = .courseFull ∧
    (handleEnroll fullDb 2 1).1 = fullDb := by decide

/-- C6 (amended): a request against an offering whose enrolled count is at
least its capacity fails with the `Course full` error and leaves the
database unchanged; no waitlist entry is created and no
`Waitlisted(position)` outcome exists in the handler. -/
theorem handleEnroll_full_rejects (db : Db) (uid cid : Nat) (c : Course)
    (hfind : findCourse db cid = some c) (hfull : c.capacity ≤ c.enrolled) :
    handleEnroll db uid cid = (db, .courseFull) := by
  simp [handleEnroll, hfind, hfull]

/-- Witness for the amended C6 theorem on the concrete full course. -/
theorem handleEnroll_full_rejects_witness :
    handleEnroll fullDb 2 1 = (fullDb, .courseFull) :=
  handleEnroll_full_rejects fullDb 2 1 ⟨1, 1, 1⟩ rfl (by decide)

/-- C7 counterexample: in the source's initial database student 1 already
has an `enrolled` record for course 1 and the course is not full; calling
the enroll handler again for the same pair succeeds and changes the state —
it neither fails with `AlreadyActive` (no such outcome exists in the code)
nor leaves the state unchanged. -/
theorem enroll_already_active_cex :
    (∃ e ∈ initializeDatabase.enrollments,
        e.studentId = 1 ∧ e.courseId = 1 ∧ e.status = .enrolled) ∧
    (handleEnroll initializeDatabase 1 1).2 = .enrolledOk ∧
    (handleEnroll initializeDatabase 1 1).1 ≠ initializeDatabase := by decide

/-- C7 (amended): the enroll handler performs no duplicate-activity check:
even when an `enrolled` record already exists for the `(student, course)`
pair, a call on a non-full course succeeds and appends a second enrollment
record for the same pair instead of failing with a typed `AlreadyActive`
error. -/
theorem handleEnroll_no_duplicate_check (db : Db) (uid cid : Nat) (c : Course)
    (e : Enrollment) (hfind : findCourse db cid = some c)
    (hnotfull : c.enrolled < c.capacity) (he : e ∈ db.enrollments)
    (hs : e.studentId = uid) (hc : e.courseId = cid) (hE : e.status = .enrolled) :
    (handleEnroll db uid cid).2 = .enrolledOk ∧
    (handleEnroll db uid cid).1.enrollments =
      db.enrollments ++ [⟨db.enrollments.length + 1, uid, cid, .enrolled⟩] := by
  have hnf : ¬ c.capacity ≤ c.enrolled := not_le.mpr hnotfull
  exact ⟨by simp [handleEnroll, hfind, hnf], by simp [handleEnroll, hfind, hnf]⟩

/-- Witness for the amended C7 theorem at the source's initial database. -/
theorem handleEnroll_no_duplicate_check_witness :
    (handleEnroll initializeDatabase 1 1).2 = .enrolledOk ∧
    (handleEnroll initializeDatabase 1 1).1.enrollments =
      initializeDatabase.enrollments ++ [⟨2, 1, 1, .enrolled⟩] :=
  handleEnroll_no_duplicate_check initializeDatabase 1 1 ⟨1, 30, 18⟩
    ⟨1, 1, 1, .enrolled⟩ rfl (by decide) (by decide) rfl rfl rfl

/-- C3 counterexample: starting from the source's initial database (student
1 enrolled in course 1, counter 18), a second identical drop call is not
rejected — the handler has no `NotEnrolled` outcome — and it changes the
state again, decrementing the course's enrolled counter from 17 to 16. -/
theorem handleDrop_twice_cex :
    handleDrop (handleDrop initializeDatabase 1 1) 1 1 ≠
      handleDrop initializeDatabase 1 1 ∧
    findCourse (handleDrop initializeDatabase 1 1) 1 = some ⟨1, 30, 17⟩ ∧
    findCourse (handleDrop (handleDrop initializeDatabase 1 1) 1 1) 1 =
      some ⟨1, 30, 16⟩ := by decide

/-- C3 (amended): calling the drop handler twice in a row on the same pair
transitions the pair's records to `dropped` once (every matching record is
`dropped` already after the first call, and the second call leaves the
records unchanged), but the second call is not rejected — there is no
`NotEnrolled` outcome — and it decrements the course's enrolled counter a
second time. -/
theorem handleDrop_twice (db : Db) (uid cid : Nat) (e : Enrollment)
    (he : e ∈ (handleDrop db uid cid).enrollments)
    (hs : e.studentId = uid) (hc : e.courseId = cid) :
    e.status = .dropped ∧
    (handleDrop (handleDrop db uid cid) uid cid).enrollments =
      (handleDrop db uid cid).enrollments ∧
    (handleDrop (handleDrop db uid cid) uid cid).courses =
      (handleDrop db uid cid).courses.map (fun c =>
        if c.id == cid then { c with enrolled := c.enrolled - 1 } else c) := by
  refine ⟨?_, ?_, rfl⟩
  · obtain ⟨a, ha, hfa⟩ := List.mem_map.mp he
    by_cases hm : (a.studentId == uid && a.courseId == cid) = true
    · rw [if_pos hm] at hfa
      exact hfa ▸ rfl
    · rw [if_neg hm] at hfa
      subst hfa
      exact absurd (by simp [hs, hc]) hm
  · show ((db.enrollments.map _).map _) = db.enrollments.map _
    rw [List.map_map]
    refine List.map_congr_left (fun a _ => ?_)
    by_cases hm : (a.studentId == uid && a.courseId == cid) = true
    · simp [Function.comp, hm]
    · simp [Function.comp, hm]

/-- Witness for the amended C3 theorem at the source's initial database. -/
theorem handleDrop_twice_witness :
    (⟨1, 1, 1, EStatus.dropped⟩ : Enrollment).status = .dropped ∧
    (handleDrop (handleDrop initializeDatabase 1 1) 1 1).enrollments =
      (handleDrop initializeDatabase 1 1).enrollments ∧
    (handleDrop (handleDrop initializeDatabase 1 1) 1 1).courses =
      (handleDrop initializeDatabase 1 1).courses.map (fun c =>
        if c.id == 1 then { c with enrolled := c.enrolled - 1 } else c) :=
  handleDrop_twice initializeDatabase 1 1 ⟨1, 1, 1, .dropped⟩ (by decide) rfl rfl

/-- C8 counterexample: two requests by distinct students against a
capacity-1 offering with no prior enrollments, in the only execution order a
single-threaded JavaScript runtime admits: the first returns the success
outcome and the second returns the `Course full` error — no waitlisted
outcome with position 1 exists, and only one enrollment record was created. -/
theorem race_cex :
    (enrollAll raceDb 1 [1, 2]).2 = [.enrolledOk, .courseFull] ∧
    (enrollAll raceDb 1 [1, 2]).1.enrollments.length = 1 := by decide

end Frontend

namespace Frontend

/-- Course lookup commutes with an id-preserving per-course update. -/
theorem find?_map_id_pres (l : List Course) (cid : Nat) (g : Course → Course)
    (hg : ∀ x, (g x).id = x.id) :
    (l.map g).find? (fun x => x.id == cid) =
      (l.find? (fun x => x.id == cid)).map g := by
  induction l with
  | nil => rfl
  | cons a t ih =>
    rw [List.map_cons]
    by_cases h : (a.id == cid) = true
    · have h2 : ((g a).id == cid) = true := by rw [hg]; exact h
      simp [h, h2]
    · have h2 : ¬ ((g a).id == cid) = true := by rw [hg]; exact h
      simp [h, h2, ih]

/-- One step of the enroll handler, seen from the course record: either the
course is full and the call is the identity returning the error, or the call
succeeds and bumps the course's counter by one. -/
theorem handleEnroll_step (db : Db) (uid cid : Nat) (c : Course)
    (hfind : findCourse db cid = some c) :
    (c.capacity ≤ c.enrolled ∧ handleEnroll db uid cid = (db, .courseFull)) ∨
    (c.enrolled < c.capacity ∧ (handleEnroll db uid cid).2 = .enrolledOk ∧
      findCourse (handleEnroll db uid cid).1 cid =
        some { c with enrolled := c.enrolled + 1 }) := by
  have hfind2 : db.courses.find? (fun x => x.id == cid) = some c := hfind
  have hpc0 := List.find?_some hfind2
  have hpc : (c.id == cid) = true := hpc0
  by_cases h : c.capacity ≤ c.enrolled
  · exact Or.inl ⟨h, by simp [handleEnroll, hfind, h]⟩
  · refine Or.inr ⟨not_le.mp h, by simp [handleEnroll, hfind, h], ?_⟩
    have hcourses : (handleEnroll db uid cid).1.courses =
        db.courses.map (fun x =>
          if x.id == cid then { x with enrolled := x.enrolled + 1 } else x) := by
      simp [handleEnroll, hfind, h]
    unfold findCourse
    rw [hcourses, find?_map_id_pres _ _ _
      (fun x => by by_cases hx : (x.id == cid) = true <;> simp [hx])]
    unfold findCourse at hfind
    rw [hfind, Option.map_some', if_pos hpc]

/-- C8 (amended): N sequential `requestEnrollment` calls against one
offering whose enrolled counter does not exceed its capacity yield exactly
`min N (capacity - enrolled)` success outcomes; every other call returns the
`Course full` error, and no other outcome — in particular no waitlisted
outcome with a position — is possible.  The handler runs in a
single-threaded JavaScript runtime, so the sequential orders modelled by
`enrollAll` are the only interleavings. -/
theorem enrollAll_counts (uids : List Nat) (db : Db) (cid : Nat) (c : Course)
    (hfind : findCourse db cid = some c) (hle : c.enrolled ≤ c.capacity) :
    ((enrollAll db cid uids).2.count .enrolledOk : Int) =
      min (uids.length : Int) (c.capacity - c.enrolled) ∧
    ((enrollAll db cid uids).2.count .courseFull : Int) =
      (uids.length : Int) - min (uids.length : Int) (c.capacity - c.enrolled) ∧
    ∀ r ∈ (enrollAll db cid uids).2, r = .enrolledOk ∨ r = .courseFull := by
  induction uids generalizing db c with
  | nil =>
    refine ⟨?_, ?_, by simp [enrollAll]⟩ <;> simp [enrollAll] <;> omega
  | cons uid rest ih =>
    rcases handleEnroll_step db uid cid c hfind with
      ⟨hfull, heq⟩ | ⟨hlt, hr, hfind'⟩
    · have h1 : enrollAll db cid (uid :: rest) =
          ((enrollAll db cid rest).1, .courseFull :: (enrollAll db cid rest).2) := by
        simp [enrollAll, heq]
      obtain ⟨ih1, ih2, ih3⟩ := ih db c hfind hle
      rw [h1]
      refine ⟨?_, ?_, ?_⟩
      · simp [List.count_cons]
        omega
      · simp [List.count_cons]
        omega
      · intro r hr
        rcases List.mem_cons.mp hr with h | h
        · exact Or.inr h
        · exact ih3 r h
    · have hle2 : ({ c with enrolled := c.enrolled + 1 } : Course).enrolled ≤
          ({ c with enrolled := c.enrolled + 1 } : Course).capacity := by
        show c.enrolled + 1 ≤ c.capacity
        omega
      obtain ⟨ih1, ih2, ih3⟩ :=
        ih (handleEnroll db uid cid).1 { c with enrolled := c.enrolled + 1 } hfind' hle2
      have hc1 : ({ c with enrolled := c.enrolled + 1 } : Course).capacity =
          c.capacity := rfl
      have hc2 : ({ c with enrolled := c.enrolled + 1 } : Course).enrolled =
          c.enrolled + 1 := rfl
      rw [hc1, hc2] at ih1 ih2
      have h1 : enrollAll db cid (uid :: rest) =
          ((enrollAll (handleEnroll db uid cid).1 cid rest).1,
           .enrolledOk :: (enrollAll (handleEnroll db uid cid).1 cid rest).2) := by
        simp only [enrollAll]
        rw [hr]
      rw [h1]
      refine ⟨?_, ?_, ?_⟩
      · simp [List.count_cons]
        omega
      · simp [List.count_cons]
        omega
      · intro r hr2
        rcases List.mem_cons.mp hr2 with h | h
        · exact Or.inl h
        · exact ih3 r h

/-- Witness for the amended C8 theorem: two students, capacity one, no
prior enrollments. -/
theorem enrollAll_counts_witness :
    ((enrollAll raceDb 1 [1, 2]).2.count EnrollResult.enrolledOk : Int) =
      min (([1, 2] : List Nat).length : Int) (1 - 0) ∧
    ((enrollAll raceDb 1 [1, 2]).2.count EnrollResult.courseFull : Int) =
      (([1, 2] : List Nat).length : Int) -
        min (([1, 2] : List Nat).length : Int) (1 - 0) ∧
    ∀ r ∈ (enrollAll raceDb 1 [1, 2]).2,
      r = EnrollResult.enrolledOk ∨ r = EnrollResult.courseFull :=
  enrollAll_counts [1, 2] raceDb 1 ⟨1, 1, 0⟩ rfl (by decide)

end Frontend

namespace Schema

/-- A successful enrollment insert went through the full-capacity guard of
`before_enrollment_insert` and appended exactly the new row and one
`ENROLLMENT_CREATE` audit row. -/
theorem insertEnrollment_ok (s s' : DbState) (student sid : Nat)
    (st : EnrollStatus) (h : insertEnrollment s student sid st = .ok s') :
    s' = { s with
      enrollment := s.enrollment ++ [⟨nextEnrollmentId s, student, sid, st⟩],
      audit_log := s.audit_log ++
        [⟨.ENROLLMENT_CREATE, nextEnrollmentId s, .createDetails sid st⟩] } ∧
    ∃ sec, s.sections.find? (fun x => x.section_id == sid) = some sec ∧
      countEnrolled s sid < sec.capacity := by
  unfold insertEnrollment at h
  cases hfind : s.sections.find? (fun x => x.section_id == sid) with
  | none => rw [hfind] at h; simp at h
  | some sec =>
    rw [hfind] at h
    dsimp only at h
    by_cases hfull : sec.capacity ≤ countEnrolled s sid
    · rw [if_pos hfull] at h; simp at h
    · rw [if_neg hfull] at h
      by_cases hstu : ¬ s.students.contains student = true
      · rw [if_pos hstu] at h; simp at h
      · rw [if_neg hstu] at h
        by_cases hdup : s.enrollment.any
            (fun r => r.student_id == student && r.section_id == sid) = true
        · rw [if_pos hdup] at h; simp at h
        · rw [if_neg hdup] at h
          simp only [Except.ok.injEq] at h
          subst h
          exact ⟨rfl, sec, rfl, not_le.mp hfull⟩

/-- A successful waitlist insert appended exactly one row, whose position
the `before_waitlist_insert` trigger set to `COALESCE(MAX(position), 0) + 1`,
and touched nothing else. -/
theorem insertWaitlist_ok (s s' : DbState) (student sid p : Nat)
    (h : insertWaitlist s student sid p = .ok s') :
    s' = { s with waitlist := s.waitlist ++
      [⟨nextWaitlistId s, sid, student, maxWaitlistPosition s sid + 1⟩] } := by
  unfold insertWaitlist at h
  by_cases hsec : ¬ s.sections.any (fun sec => sec.section_id == sid) = true
  · rw [if_pos hsec] at h; simp at h
  · rw [if_neg hsec] at h
    by_cases hstu : ¬ s.students.contains student = true
    · rw [if_pos hstu] at h; simp at h
    · rw [if_neg hstu] at h
      by_cases hdup : s.waitlist.any
          (fun w => w.section_id == sid && w.student_id == student) = true
      · rw [if_pos hdup] at h; simp at h
      · rw [if_neg hdup] at h
        simp only [Except.ok.injEq] at h
        exact h.symm

/-- Filtering a pointwise-updated list cannot grow it when the update never
turns a non-matching element into a matching one. -/
theorem length_filter_map_le {α : Type} (l : List α) (f : α → α) (p : α → Bool)
    (h : ∀ x, p (f x) = true → p x = true) :
    ((l.map f).filter p).length ≤ (l.filter p).length := by
  induction l with
  | nil => simp
  | cons a t ih =>
    rw [List.map_cons]
    cases hpa : p (f a) with
    | true =>
      have hpa2 : p a = true := h a hpa
      rw [List.filter_cons_of_pos hpa, List.filter_cons_of_pos hpa2,
        List.length_cons, List.length_cons]
      omega
    | false =>
      rw [List.filter_cons_of_neg (by simp [hpa])]
      cases hpa2 : p a with
      | true =>
        rw [List.filter_cons_of_pos hpa2, List.length_cons]
        omega
      | false =>
        rw [List.filter_cons_of_neg (by simp [hpa2])]
        exact ih

/-- Every element of a list of naturals is bounded by its `foldr max 0`. -/
theorem le_foldr_max (x : Nat) (l : List Nat) (hx : x ∈ l) :
    x ≤ l.foldr Nat.max 0 := by
  induction l with
  | nil => cases hx
  | cons a t ih =>
    rcases List.mem_cons.mp hx with rfl | h
    · exact Nat.le_max_left x (t.foldr Nat.max 0)
    · exact le_trans (ih h) (Nat.le_max_right a (t.foldr Nat.max 0))

/-- With pairwise-distinct primary keys, looking a member's key up finds
that member. -/
theorem find?_eq_of_mem_uniq (l : List SectionRow)
    (hu : l.Pairwise (fun a b => a.section_id ≠ b.section_id))
    (sec : SectionRow) (hm : sec ∈ l) :
    l.find? (fun x => x.section_id == sec.section_id) = some sec := by
  induction l with
  | nil => cases hm
  | cons a t ih =>
    rcases List.mem_cons.mp hm with rfl | hm2
    · simp
    · have ha : a.section_id ≠ sec.section_id :=
        (List.pairwise_cons.mp hu).1 sec hm2
      have hpa : (a.section_id == sec.section_id) = false := by
        simpa using ha
      simp only [List.find?_cons, hpa]
      exact ih (List.pairwise_cons.mp hu).2 hm2

end Schema

namespace Schema

/-- Unfolding lemma for `countEnrolled`. -/
theorem countEnrolled_def (s : DbState) (sid2 : Nat) :
    countEnrolled s sid2 = (s.enrollment.filter
      (fun r => r.section_id == sid2 && r.enrollment_status == .Enrolled)).length := rfl

/-- Every reachable state has pairwise-distinct section primary keys (they
never change) and satisfies the capacity bound for every section. -/
theorem reachable_inv (s : DbState) (h : Reachable s) :
    s.sections.Pairwise (fun a b => a.section_id ≠ b.section_id) ∧
    ∀ sec ∈ s.sections, countEnrolled s sec.section_id ≤ sec.capacity := by
  induction h with
  | init sections students huniq =>
    exact ⟨huniq, fun sec hs => by simp [countEnrolled]⟩
  | @enroll s s' student sid st hre heq ih =>
    obtain ⟨hs', sec0, hfind, hlt⟩ := insertEnrollment_ok s s' student sid st heq
    subst hs'
    obtain ⟨ihu, ihc⟩ := ih
    refine ⟨ihu, fun sec hs => ?_⟩
    have hold := ihc sec hs
    simp only [countEnrolled_def, List.filter_append, List.length_append] at hold ⊢
    by_cases hrow : (sid == sec.section_id && st == EnrollStatus.Enrolled) = true
    · have hsid : sid = sec.section_id := by
        simp only [Bool.and_eq_true, beq_iff_eq] at hrow
        exact hrow.1
      have hsec0 : sec = sec0 := by
        have h1 := find?_eq_of_mem_uniq s.sections ihu sec hs
        rw [← hsid] at h1
        rw [h1] at hfind
        exact Option.some_inj.mp hfind
      have hcnt : countEnrolled s sec.section_id < sec.capacity := by
        rw [← hsid, hsec0]
        exact hlt
      simp only [countEnrolled_def] at hcnt
      simp only [List.filter_cons, List.filter_nil, hrow, if_true, List.length_cons,
        List.length_nil]
      omega
    · simp only [List.filter_cons, List.filter_nil, hrow, Bool.false_eq_true, if_false,
        List.length_nil]
      omega
  | @drop s student sid st hre hst ih =>
    obtain ⟨ihu, ihc⟩ := ih
    refine ⟨ihu, fun sec hs => ?_⟩
    have hs2 : sec ∈ s.sections := hs
    refine le_trans ?_ (ihc sec hs2)
    simp only [countEnrolled_def, updateEnrollmentStatus]
    apply length_filter_map_le
    intro x hx
    by_cases hm : (x.student_id == student && x.section_id == sid) = true
    · rw [if_pos hm] at hx
      exfalso
      simp only [Bool.and_eq_true, beq_iff_eq] at hx
      exact hst hx.2
    · rw [if_neg hm] at hx
      exact hx
  | @waitlistAdd s s' student sid p hre heq ih =>
    have hs' := insertWaitlist_ok s s' student sid p heq
    subst hs'
    obtain ⟨ihu, ihc⟩ := ih
    exact ⟨ihu, fun sec hs => ihc sec hs⟩
  | @waitlistRemove s sid student hre ih =>
    obtain ⟨ihu, ihc⟩ := ih
    exact ⟨ihu, fun sec hs => ihc sec hs⟩

end Schema

namespace Schema

/-- C1: in every reachable database state, every section's count of
`Enrolled` enrollment rows is at most its capacity, and whenever the count
already equals or exceeds the capacity, any attempted enrollment insert for
that section is rejected by the `before_enrollment_insert` trigger's
`Section is at full capacity` signal. -/
theorem capacity_invariant (s : DbState) (sec : SectionRow)
    (h : Reachable s) (hsec : sec ∈ s.sections) :
    countEnrolled s sec.section_id ≤ sec.capacity ∧
    (sec.capacity ≤ countEnrolled s sec.section_id →
      ∀ student st, insertEnrollment s student sec.section_id st =
        .error .sectionFullSignal) := by
  obtain ⟨hu, hinv⟩ := reachable_inv s h
  refine ⟨hinv sec hsec, fun hfull student st => ?_⟩
  unfold insertEnrollment
  rw [find?_eq_of_mem_uniq s.sections hu sec hsec]
  dsimp only
  rw [if_pos hfull]

/-- Witness for C1 at a reachable state whose one-seat section is full. -/
theorem capacity_invariant_witness :
    countEnrolled capOneFull 1 ≤ 1 ∧
    (1 ≤ countEnrolled capOneFull 1 →
      ∀ student st, insertEnrollment capOneFull student 1 st =
        .error .sectionFullSignal) :=
  capacity_invariant capOneFull ⟨1, 1, .Scheduled⟩
    (Reachable.enroll 1 1 .Enrolled
      (Reachable.init [⟨1, 1, .Scheduled⟩] [1, 2, 3] (by simp)) rfl)
    (by simp [capOneFull])

/-- C4 counterexample: a reachable state in which section 1's waitlist
positions are `[1, 3]` — after the middle of three entries is deleted, the
remaining positions keep their values, so they are not the contiguous
sequence `1..N`: nothing in the schema renumbers on removal. -/
theorem waitlist_gap_cex :
    Reachable wlGap ∧ waitPositions wlGap 1 = [1, 3] ∧
    ¬ contiguousPositions wlGap 1 := by
  have h0 : Reachable capOne :=
    Reachable.init [⟨1, 1, .Scheduled⟩] [1, 2, 3] (by simp)
  have h1 : Reachable wlOne := Reachable.waitlistAdd 1 1 5 h0 rfl
  have h2 : Reachable wlTwo := Reachable.waitlistAdd 2 1 0 h1 rfl
  have h3 : Reachable wlThree := Reachable.waitlistAdd 3 1 7 h2 rfl
  exact ⟨Reachable.waitlistRemove 1 2 h3, by decide, by decide⟩

/-- C4 (amended): in every reachable state the waitlist positions of any
section are strictly increasing in arrival (table) order — each insert is
assigned one more than the section's maximum position, so positions are
duplicate-free and ordered, and they form `1..N` as long as no entry has
been removed; a removal leaves a gap, since no renumbering exists. -/
theorem waitlist_positions_increasing (s : DbState) (h : Reachable s) (sid : Nat) :
    (waitPositions s sid).Pairwise (· < ·) := by
  induction h with
  | init sections students huniq => simp [waitPositions]
  | @enroll s s' student sid2 st hre heq ih =>
    obtain ⟨hs', -⟩ := insertEnrollment_ok s s' student sid2 st heq
    subst hs'
    exact ih
  | @drop s student sid2 st hre hst ih =>
    exact ih
  | @waitlistAdd s s' student sid2 p hre heq ih =>
    have hs' := insertWaitlist_ok s s' student sid2 p heq
    subst hs'
    show (((s.waitlist ++
        [(⟨nextWaitlistId s, sid2, student, maxWaitlistPosition s sid2 + 1⟩ :
          WaitlistRow)]).filter
        (fun w : WaitlistRow => w.section_id == sid)).map
        (fun w : WaitlistRow => w.position)).Pairwise (· < ·)
    rw [List.filter_append, List.map_append]
    by_cases hsid : (sid2 == sid) = true
    · rw [List.pairwise_append]
      refine ⟨ih, by simp [List.filter_cons, hsid], fun a ha b hb => ?_⟩
      simp only [List.filter_cons, List.filter_nil, hsid, if_true, List.map_cons,
        List.map_nil, List.mem_singleton] at hb
      subst hb
      have hle : a ≤ maxWaitlistPosition s sid :=
        le_foldr_max a (waitPositions s sid) ha
      have hsid2 : sid2 = sid := by simpa using hsid
      subst hsid2
      omega
    · simp only [List.filter_cons, List.filter_nil, hsid, Bool.false_eq_true, if_false,
        List.map_nil, List.append_nil]
      exact ih
  | @waitlistRemove s sid2 student hre ih =>
    have hsub : List.Sublist
        (((deleteWaitlist s sid2 student).waitlist.filter
          (fun w => w.section_id == sid)).map (fun w => w.position))
        ((s.waitlist.filter (fun w => w.section_id == sid)).map (fun w => w.position)) :=
      List.Sublist.map _ (List.Sublist.filter _ (List.filter_sublist _))
    exact List.Pairwise.sublist hsub ih

/-- Witness for the amended C4 theorem at the reachable three-entry
waitlist state. -/
theorem waitlist_positions_increasing_witness :
    (waitPositions wlThree 1).Pairwise (· < ·) :=
  waitlist_positions_increasing wlThree
    (Reachable.waitlistAdd 3 1 7
      (Reachable.waitlistAdd 2 1 0
        (Reachable.waitlistAdd 1 1 5
          (Reachable.init [⟨1, 1, .Scheduled⟩] [1, 2, 3] (by simp)) rfl) rfl) rfl) 1

end Schema

namespace Schema

/-- C2 counterexample: a reachable state with a full one-seat section
(student 1 `Enrolled`, capacity 1) and a non-empty waitlist (student 2 at
position 1).  Dropping student 1 — the `UPDATE` a drop performs — removes
nothing from the waitlist and creates no new `Enrolled` record for the
waitlisted student: the schema contains no promotion logic. -/
theorem drop_no_promotion_cex :
    Reachable promoState ∧
    countEnrolled promoState 1 = 1 ∧
    promoState.enrollment = [⟨1, 1, 1, .Enrolled⟩] ∧
    promoState.waitlist = [⟨1, 1, 2, 1⟩] ∧
    (updateEnrollmentStatus promoState 1 1 .Dropped).waitlist =
      promoState.waitlist ∧
    (updateEnrollmentStatus promoState 1 1 .Dropped).enrollment =
      [⟨1, 1, 1, .Dropped⟩] := by
  refine ⟨?_, by decide, by decide, by decide, by decide, by decide⟩
  exact Reachable.waitlistAdd 2 1 99
    (Reachable.enroll 1 1 .Enrolled
      (Reachable.init [⟨1, 1, .Scheduled⟩] [1, 2, 3] (by simp)) rfl) rfl

/-- C2 (amended): the status update a drop performs leaves the waitlist
untouched and creates no `Enrolled` record: every record that is `Enrolled`
after the update was already present (and `Enrolled`) before it.  No
waitlisted student is promoted and no position is renumbered. -/
theorem drop_is_no_promotion (s : DbState) (student sid : Nat)
    (r : EnrollmentRow)
    (hr : r ∈ (updateEnrollmentStatus s student sid .Dropped).enrollment)
    (hE : r.enrollment_status = .Enrolled) :
    (updateEnrollmentStatus s student sid .Dropped).waitlist = s.waitlist ∧
    r ∈ s.enrollment := by
  refine ⟨rfl, ?_⟩
  simp only [updateEnrollmentStatus] at hr
  obtain ⟨a, ha, hfa⟩ := List.mem_map.mp hr
  by_cases hm : (a.student_id == student && a.section_id == sid) = true
  · rw [if_pos hm] at hfa
    subst hfa
    exact absurd hE (by simp)
  · rw [if_neg hm] at hfa
    exact hfa ▸ ha

/-- Witness for the amended C2 theorem: student 2 (not enrolled) is dropped
in the full one-seat state; student 1's record stays `Enrolled` and was
present before. -/
theorem drop_is_no_promotion_witness :
    (updateEnrollmentStatus capOneFull 2 1 .Dropped).waitlist =
      capOneFull.waitlist ∧
    (⟨1, 1, 1, EnrollStatus.Enrolled⟩ : EnrollmentRow) ∈ capOneFull.enrollment :=
  drop_is_no_promotion capOneFull 2 1 ⟨1, 1, 1, .Enrolled⟩ (by decide) rfl

/-- C5 counterexample: inserting a waitlist row creates a `WaitlistEntry`
and deleting it removes one, yet in both transitions the audit log is
unchanged — zero `AuditEvent`s, not one, because the schema defines no
trigger on the `waitlist` table. -/
theorem waitlist_audit_cex :
    insertWaitlist capOneFull 2 1 99 = .ok promoState ∧
    promoState.waitlist ≠ capOneFull.waitlist ∧
    promoState.audit_log = capOneFull.audit_log ∧
    (deleteWaitlist promoState 1 2).waitlist ≠ promoState.waitlist ∧
    (deleteWaitlist promoState 1 2).audit_log = promoState.audit_log := by
  exact ⟨rfl, by decide, rfl, by decide, rfl⟩

/-- C5 (amended): a successful enrollment insert appends exactly one
`ENROLLMENT_CREATE` audit row; an enrollment status update appends exactly
one `ENROLLMENT_UPDATE` audit row per matched record (at most one under the
table's unique key); transitions that create or remove a waitlist row
append no audit row at all. -/
theorem audit_per_transition (s s1 s2 : DbState)
    (stu1 sid1 stu2 sid2 p stu3 sid3 sid4 stu4 : Nat) (st1 st3 : EnrollStatus)
    (h1 : insertEnrollment s stu1 sid1 st1 = .ok s1)
    (h2 : insertWaitlist s stu2 sid2 p = .ok s2) :
    s1.audit_log = s.audit_log ++
      [⟨.ENROLLMENT_CREATE, nextEnrollmentId s, .createDetails sid1 st1⟩] ∧
    (updateEnrollmentStatus s stu3 sid3 st3).audit_log = s.audit_log ++
      (s.enrollment.filter
        (fun r => r.student_id == stu3 && r.section_id == sid3)).map
        (fun r => ⟨.ENROLLMENT_UPDATE, r.enrollment_id,
                   .updateDetails r.enrollment_status st3⟩) ∧
    s2.audit_log = s.audit_log ∧
    (deleteWaitlist s sid4 stu4).audit_log = s.audit_log := by
  obtain ⟨hs1, -⟩ := insertEnrollment_ok s s1 stu1 sid1 st1 h1
  have hs2 := insertWaitlist_ok s s2 stu2 sid2 p h2
  subst hs1
  subst hs2
  exact ⟨rfl, rfl, rfl, rfl⟩

/-- Witness for the amended C5 theorem on concrete transitions from the
one-seat base state. -/
theorem audit_per_transition_witness :
    capOneFull.audit_log = capOne.audit_log ++
      [⟨.ENROLLMENT_CREATE, 1, .createDetails 1 .Enrolled⟩] ∧
    (updateEnrollmentStatus capOne 1 1 .Dropped).audit_log =
      capOne.audit_log ++
      (capOne.enrollment.filter
        (fun r => r.student_id == 1 && r.section_id == 1)).map
        (fun r => ⟨.ENROLLMENT_UPDATE, r.enrollment_id,
                   .updateDetails r.enrollment_status .Dropped⟩) ∧
    capOneWl.audit_log = capOne.audit_log ∧
    (deleteWaitlist capOne 1 3).audit_log = capOne.audit_log :=
  audit_per_transition capOne capOneFull capOneWl 1 1 2 1 0 1 1 1 3
    .Enrolled .Dropped rfl rfl

/-- C10: on every successful insert into the waitlist table the stored row
gets position `COALESCE(MAX(position), 0) + 1` over the section's existing
entries — `1` when the section has none — and the position supplied by the
inserting statement is ignored: the result is the same for every supplied
value. -/
theorem insertWaitlist_position (s s' : DbState)
    (student sid supplied_position : Nat)
    (h : insertWaitlist s student sid supplied_position = .ok s') :
    s'.waitlist = s.waitlist ++
      [⟨nextWaitlistId s, sid, student, maxWaitlistPosition s sid + 1⟩] ∧
    (s.waitlist.filter (fun w => w.section_id == sid) = [] →
      maxWaitlistPosition s sid + 1 = 1) ∧
    ∀ q, insertWaitlist s student sid q =
      insertWaitlist s student sid supplied_position := by
  refine ⟨?_, ?_, fun q => rfl⟩
  · rw [insertWaitlist_ok s s' student sid supplied_position h]
  · intro hemp
    unfold maxWaitlistPosition
    rw [hemp]
    rfl

/-- Witness for C10: student 2 joins the waitlist of the full one-seat
section with supplied position 99; the stored position is 1. -/
theorem insertWaitlist_position_witness :
    promoState.waitlist = capOneFull.waitlist ++ [⟨1, 1, 2, 1⟩] ∧
    (capOneFull.waitlist.filter (fun w => w.section_id == 1) = [] →
      maxWaitlistPosition capOneFull 1 + 1 = 1) ∧
    ∀ q, insertWaitlist capOneFull 2 1 q = insertWaitlist capOneFull 2 1 99 :=
  insertWaitlist_position capOneFull promoState 2 1 99 rfl

end Schema
